import Mathlib

/-!
Verification of the ghci session driver (src/lib.rs) against its
specification.

The library drives a ghci subprocess: it spawns the child, negotiates a
unique prompt marker, and then, for every evaluation, writes a framed
command to the child stdin and runs a poll-driven loop that drains the
child stdout and stderr until the accumulated stdout ends with the
marker.

The embedding below models the OS side (poll results, bytes produced by
each drain of a stream, outcomes of the child kill and wait calls) as
explicit event traces, and translates each function of the source into a
pure Lean function over those traces. Byte strings are `List Char`
(the source only ever deals with UTF-8 text). A blocking loop that would
wait forever on an exhausted trace is represented by an `Option` result,
with `none` meaning the run is not yet resolved by the given trace.
-/

namespace GhciRs

/-- Kinds of IO errors the embedding distinguishes: `invalidInput` is
returned by the std child-kill on an already exited child,
`interrupted` is the read error kind that `clear_blocking_reader_until`
retries on, and `other` stands for any other IO failure. -/
inductive IOErr where
  | invalidInput
  | interrupted
  | other
  deriving DecidableEq

deriving instance DecidableEq for Except

/-- Error type of the library (enum `GhciError` in src/lib.rs):
`timeout` when poll reports no descriptor ready, `ioError` wrapping an
IO failure, `pollError` wrapping an errno from the poll call itself. -/
inductive GhciErr where
  | timeout
  | ioError (e : IOErr)
  | pollError (errno : Nat)
  deriving DecidableEq

/-- Result of one evaluation (struct `EvalOutput` in src/lib.rs). -/
structure EvalOutput where
  stdout : List Char
  stderr : List Char
  deriving DecidableEq

/-- The prompt marker (const `PROMPT` in src/lib.rs):
`"__ghci_rust_prompt__>\n"`. -/
def PROMPT : List Char := "__ghci_rust_prompt__>\n".data

/-- One iteration of the eval wait loop as seen from the environment:
either the poll call itself fails with an errno, or poll returns with a
readiness flag for each of stderr and stdout — poll returns 0 exactly
when neither descriptor is ready — together with the outcome a
non-blocking drain (`read_available_to_string`) of each stream would
produce at that moment. A read outcome attached to a stream that is not
ready is never consulted. -/
inductive PollEvent where
  | pollErr (errno : Nat)
  | ready (stderrReady stdoutReady : Bool)
      (stderrRead stdoutRead : Except IOErr (List Char))
  deriving DecidableEq

/-- Wait loop of `Ghci::eval` (src/lib.rs lines 177-201), one event per
poll call. Mirrors the source exactly: a poll error propagates as
`pollError`; a poll returning with no descriptor ready yields `timeout`;
otherwise stderr is drained first when ready (a read error propagating
as `ioError`), then stdout is drained when ready, and after that drain
the loop exits successfully exactly when the stdout accumulator ends
with `PROMPT`, which is then truncated off the tail. -/
def evalLoop : List PollEvent → List Char → List Char →
    Option (Except GhciErr EvalOutput)
  | [], _, _ => none
  | .pollErr e :: _, _, _ => some (.error (.pollError e))
  | .ready er orr eD oD :: rest, so, se =>
    if er = false ∧ orr = false then
      some (.error .timeout)
    else
      match (if er then eD else .ok []) with
      | .error e => some (.error (.ioError e))
      | .ok eb =>
        if orr then
          match oD with
          | .error e => some (.error (.ioError e))
          | .ok ob =>
            if PROMPT <:+ (so ++ ob) then
              some (.ok ⟨(so ++ ob).take ((so ++ ob).length - PROMPT.length),
                se ++ eb⟩)
            else evalLoop rest (so ++ ob) (se ++ eb)
        else evalLoop rest so (se ++ eb)

/-- Byte sequence `Ghci::eval` writes to the child stdin before the wait
loop (src/lib.rs lines 166-168): the three `write_all` calls with
payloads `":{\n"`, the snippet, and `"\n:}\n"`. -/
def frameInput (input : List Char) : List Char :=
  [':', '\x7b', '\n'] ++ input ++ ['\n', ':', '\x7d', '\n']

/-- Timeout argument passed to poll (src/lib.rs lines 172-175):
`self.timeout.and_then(|d| d.as_millis().try_into().ok()).unwrap_or(-1)`.
The duration is its (non-negative) millisecond count; `try_into` targets
the C int type of poll, so it succeeds exactly when the count is at most
2147483647. -/
def pollTimeoutArg (timeout : Option Nat) : Int :=
  (timeout.bind fun ms =>
    if ms ≤ 2147483647 then some (Int.ofNat ms) else none).getD (-1)

/-- Everything observable about one `Ghci::eval` call: the bytes written
to the child stdin, the timeout argument handed to poll, and the result
of the wait loop. -/
structure EvalCall where
  written : List Char
  pollArg : Int
  result : Option (Except GhciErr EvalOutput)
  deriving DecidableEq

/-- Model of `Ghci::eval` (src/lib.rs lines 165-204). The session state
it reads is the configured timeout; the stdout and stderr accumulators
are the local `String::new()` variables of the call, so the wait loop
starts from empty accumulators. -/
def eval (timeout : Option Nat) (input : List Char) (events : List PollEvent) :
    EvalCall :=
  ⟨frameInput input, pollTimeoutArg timeout, evalLoop events [] []⟩

/-- Helper `clear_blocking_reader_until` (src/lib.rs lines 305-321) over
a trace of read outcomes. The source reads into `buffer[end..]` of a
1024-byte buffer, so a read can deliver at most `1024 - end` bytes: the
model truncates each offered chunk to that capacity, which also makes a
read against a full buffer yield zero bytes. A zero-byte read returns
`Ok(())` at once; otherwise the bytes are appended and the function
returns `Ok(())` when the accumulated buffer ends with the expected
pattern; an `interrupted` read error is retried, any other read error is
returned. -/
def clear_blocking_reader_until :
    List (Except IOErr (List Char)) → List Char → List Char →
    Option (Except IOErr Unit)
  | [], _, _ => none
  | .error e :: rest, pat, buf =>
    if e = .interrupted then clear_blocking_reader_until rest pat buf
    else some (.error e)
  | .ok chunk :: rest, pat, buf =>
    let c := chunk.take (1024 - buf.length)
    if c = [] then some (.ok ())
    else if pat <:+ (buf ++ c) then some (.ok ())
    else clear_blocking_reader_until rest pat (buf ++ c)

/-- Default ghci prompt pattern the handshake first drains to
(src/lib.rs line 103). -/
def defaultGhciPrompt : List Char := "> ".data

/-- Bytes of the prompt-override command written during the handshake
(src/lib.rs lines 106-108): `:set prompt "` then the marker without its
trailing newline, then a literal backslash-n escape, a closing quote and
a newline. -/
def setPromptCmd : List Char :=
  ":set prompt \"".data ++ PROMPT.dropLast ++ "\\n\"\n".data

/-- Bytes of the continuation-prompt-clear command written during the
handshake (src/lib.rs line 111). -/
def setPromptContCmd : List Char := ":set prompt-cont \"\"\n".data

/-- Handshake of `Ghci::new` (src/lib.rs lines 103-112) over three read
traces, one per gated drain phase. Phase 1 drains the startup banner up
to the default prompt; then the prompt-override command is written and
phase 2 drains up to the marker; then the continuation-prompt-clear
command is written and phase 3 drains up to the marker again. A drain
failure propagates at once, so later commands are not written. The
second component collects the bytes written to the child stdin. -/
def new (t1 t2 t3 : List (Except IOErr (List Char))) :
    Option (Except IOErr Unit) × List Char :=
  match clear_blocking_reader_until t1 defaultGhciPrompt [] with
  | none => (none, [])
  | some (.error e) => (some (.error e), [])
  | some (.ok _) =>
    match clear_blocking_reader_until t2 PROMPT [] with
    | none => (none, setPromptCmd)
    | some (.error e) => (some (.error e), setPromptCmd)
    | some (.ok _) =>
      match clear_blocking_reader_until t3 PROMPT [] with
      | none => (none, setPromptCmd ++ setPromptContCmd)
      | some (.error e) => (some (.error e), setPromptCmd ++ setPromptContCmd)
      | some (.ok _) => (some (.ok ()), setPromptCmd ++ setPromptContCmd)

/-- Model of `std::process::Child::kill` per its documented contract:
if the child has already exited the call fails with an `InvalidInput`
IO error, otherwise the child is terminated (the returned Bool is the
new liveness, always false on success). -/
def child_kill (alive : Bool) : Except IOErr Bool :=
  if alive then .ok false else .error .invalidInput

/-- Model of `Ghci::close` (src/lib.rs lines 288-290):
`Ok(self.child.kill()?)`, the IO error being wrapped into
`GhciErr.ioError`. -/
def close (alive : Bool) : Except GhciErr Bool :=
  match child_kill alive with
  | .ok alive2 => .ok alive2
  | .error e => .error (.ioError e)

/-- Environment of the `Drop` impl: the outcome of `try_wait` (an IO
error, or `some` exit status when the child already exited, or `none`
when it is still running) and the outcome a `kill` would have. -/
structure DropEnv where
  tryWaitRes : Except IOErr (Option Nat)
  killRes : Except IOErr Unit
  deriving DecidableEq

/-- Observable outcome of the `Drop` impl: a clean return (recording
whether a kill was performed) or a panic. -/
inductive DropOutcome where
  | clean (killed : Bool)
  | panicked
  deriving DecidableEq

/-- Model of `impl Drop for Ghci` (src/lib.rs lines 293-299):
`if self.child.try_wait().unwrap().is_none() { self.child.kill().unwrap() }`.
Both calls are unwrapped, so a failure of either panics; a child that
already exited (try_wait returns an exit status) gets no kill. -/
def drop (env : DropEnv) : DropOutcome :=
  match env.tryWaitRes with
  | .error _ => .panicked
  | .ok (some _) => .clean false
  | .ok none =>
    match env.killRes with
    | .ok _ => .clean true
    | .error _ => .panicked

/-- Readiness check on a read outcome. -/
def isOkRead : Except IOErr (List Char) → Bool
  | .ok _ => true
  | .error _ => false

/-- Event cleanliness: the poll call did not fail, at least one
descriptor is ready, and every consulted drain succeeds. -/
def cleanEvent : PollEvent → Bool
  | .pollErr _ => false
  | .ready er orr eD oD => (er || orr) && (!er || isOkRead eD)
      && (!orr || isOkRead oD)

/-- Trace cleanliness: every event is clean. -/
def cleanEvents (events : List PollEvent) : Bool := events.all cleanEvent

/-- Zero-ready poll events are the events where poll returned 0. -/
def isZeroReady : PollEvent → Bool
  | .ready false false _ _ => true
  | _ => false

/-- Bytes the eval loop drains from stdout at one event. -/
def outBytesOf : PollEvent → List Char
  | .ready _ true _ (.ok ob) => ob
  | _ => []

/-- Bytes the eval loop drains from stderr at one event. -/
def errBytesOf : PollEvent → List Char
  | .ready true _ (.ok eb) _ => eb
  | _ => []

/-- Concatenated stdout bytes drained over a trace. -/
def outBytes : List PollEvent → List Char
  | [] => []
  | e :: rest => outBytesOf e ++ outBytes rest

/-- Concatenated stderr bytes drained over a trace. -/
def errBytes : List PollEvent → List Char
  | [] => []
  | e :: rest => errBytesOf e ++ errBytes rest

/-- Stdout drains of a trace, one chunk per event whose stdout
descriptor is ready with a successful read. -/
def outChunks : List PollEvent → List (List Char)
  | [] => []
  | .ready _ true _ (.ok ob) :: rest => ob :: outChunks rest
  | _ :: rest => outChunks rest

/-- Modelled from the claim wording, for comparison with `evalLoop`:
scan the successive stdout drains, appending each to the accumulator;
as soon as the accumulator ends with the prompt marker, stop
successfully and return the accumulator with the marker stripped from
its tail. -/
def specEvalStdout : List (List Char) → List Char → Option (List Char)
  | [], _ => none
  | c :: cs, acc =>
    if PROMPT <:+ (acc ++ c) then
      some ((acc ++ c).take ((acc ++ c).length - PROMPT.length))
    else specEvalStdout cs (acc ++ c)

/-- Bytes left unflushed by a line-buffering writer after writing `s`:
everything after the last newline. -/
def lineWriterPending (s : List Char) : List Char :=
  (s.reverse.takeWhile (fun c => c != '\n')).reverse

/-- Stripping a suffix pattern by truncation and then appending the pattern
back restores the original list. -/
lemma take_of_suffix {pat l : List Char} (h : pat <:+ l) :
    l.take (l.length - pat.length) ++ pat = l := by
  obtain ⟨t, rfl⟩ := h
  simp [List.take_left]

/-- Successful runs of the wait loop return exactly the bytes drained during
a prefix of the trace: the returned stdout followed by one copy of the
marker equals the initial stdout accumulator followed by the drained
stdout bytes, and the returned stderr is the initial stderr accumulator
followed by the drained stderr bytes. -/
lemma evalLoop_ok_bytes : ∀ (events : List PollEvent) (so se : List Char) (out : EvalOutput),
    evalLoop events so se = some (Except.ok out) →
    ∃ n, out.stdout ++ PROMPT = so ++ outBytes (events.take n) ∧
      out.stderr = se ++ errBytes (events.take n) := by
  intro events
  induction events with
  | nil => intro so se out h; simp [evalLoop] at h
  | cons e rest ih =>
    intro so se out h
    cases e with
    | pollErr n => simp [evalLoop] at h
    | ready er orr eD oD =>
      cases er <;> cases orr
      · simp [evalLoop] at h
      · cases oD with
        | error e2 => simp [evalLoop] at h
        | ok ob =>
          by_cases hp : PROMPT <:+ (so ++ ob)
          · simp [evalLoop, hp] at h
            subst h
            refine ⟨1, ?_, ?_⟩
            · simp [outBytes, outBytesOf]
              simpa using take_of_suffix hp
            · simp [errBytes, errBytesOf]
          · simp [evalLoop, hp] at h
            obtain ⟨n, h1, h2⟩ := ih _ _ _ h
            refine ⟨n + 1, ?_, ?_⟩
            · simp [outBytes, outBytesOf, h1]
            · simp [errBytes, errBytesOf, h2]
      · cases eD with
        | error e2 => simp [evalLoop] at h
        | ok eb =>
          simp [evalLoop] at h
          obtain ⟨n, h1, h2⟩ := ih _ _ _ h
          refine ⟨n + 1, ?_, ?_⟩
          · simp [outBytes, outBytesOf, h1]
          · simp [errBytes, errBytesOf, h2]
      · cases eD with
        | error e2 => simp [evalLoop] at h
        | ok eb =>
          cases oD with
          | error e2 => simp [evalLoop] at h
          | ok ob =>
            by_cases hp : PROMPT <:+ (so ++ ob)
            · simp [evalLoop, hp] at h
              subst h
              refine ⟨1, ?_, ?_⟩
              · simp [outBytes, outBytesOf]
                simpa using take_of_suffix hp
              · simp [errBytes, errBytesOf]
            · simp [evalLoop, hp] at h
              obtain ⟨n, h1, h2⟩ := ih _ _ _ h
              refine ⟨n + 1, ?_, ?_⟩
              · simp [outBytes, outBytesOf, h1]
              · simp [errBytes, errBytesOf, h2]

/-- Equivalence of the wait loop with the claim-side marker scan on clean
traces: the loop exits successfully exactly when the scan over the
successive stdout drains reaches an accumulator ending with the marker,
and the returned stdout is that accumulator with the marker stripped
from its tail. -/
lemma evalLoop_spec_equiv : ∀ (events : List PollEvent), cleanEvents events = true →
    ∀ so se : List Char,
    (∀ out : EvalOutput, evalLoop events so se = some (Except.ok out) →
        specEvalStdout (outChunks events) so = some out.stdout)
    ∧ (∀ s : List Char, specEvalStdout (outChunks events) so = some s →
        ∃ se2, evalLoop events so se = some (Except.ok ⟨s, se2⟩)) := by
  intro events
  induction events with
  | nil =>
    intro _ so se
    constructor
    · intro out h; simp [evalLoop] at h
    · intro s h; simp [outChunks, specEvalStdout] at h
  | cons e rest ih =>
    intro hclean so se
    rw [cleanEvents, List.all_cons, Bool.and_eq_true] at hclean
    obtain ⟨hce, hcr⟩ := hclean
    cases e with
    | pollErr n => simp [cleanEvent] at hce
    | ready er orr eD oD =>
      cases er <;> cases orr
      · simp [cleanEvent] at hce
      · cases oD with
        | error e2 => simp [cleanEvent, isOkRead] at hce
        | ok ob =>
          by_cases hp : PROMPT <:+ (so ++ ob)
          · constructor
            · intro out h
              simp [evalLoop, hp] at h
              subst h
              simp [outChunks, specEvalStdout, hp]
            · intro s h
              simp [outChunks, specEvalStdout, hp] at h
              exact ⟨se, by simp [evalLoop, hp, h]⟩
          · have ihr := ih hcr (so ++ ob) se
            constructor
            · intro out h
              simp [evalLoop, hp] at h
              have := ihr.1 out h
              simp [outChunks, specEvalStdout, hp, this]
            · intro s h
              simp [outChunks, specEvalStdout, hp] at h
              obtain ⟨se2, h2⟩ := ihr.2 s h
              exact ⟨se2, by simp [evalLoop, hp, h2]⟩
      · cases eD with
        | error e2 => simp [cleanEvent, isOkRead] at hce
        | ok eb =>
          have ihr := ih hcr so (se ++ eb)
          constructor
          · intro out h
            simp [evalLoop] at h
            have := ihr.1 out h
            simpa [outChunks] using this
          · intro s h
            simp [outChunks] at h
            obtain ⟨se2, h2⟩ := ihr.2 s h
            exact ⟨se2, by simp [evalLoop, h2]⟩
      · cases eD with
        | error e2 => simp [cleanEvent, isOkRead] at hce
        | ok eb =>
          cases oD with
          | error e2 => simp [cleanEvent, isOkRead] at hce
          | ok ob =>
            by_cases hp : PROMPT <:+ (so ++ ob)
            · constructor
              · intro out h
                simp [evalLoop, hp] at h
                subst h
                simp [outChunks, specEvalStdout, hp]
              · intro s h
                simp [outChunks, specEvalStdout, hp] at h
                exact ⟨se ++ eb, by simp [evalLoop, hp, h]⟩
            · have ihr := ih hcr (so ++ ob) (se ++ eb)
              constructor
              · intro out h
                simp [evalLoop, hp] at h
                have := ihr.1 out h
                simp [outChunks, specEvalStdout, hp, this]
              · intro s h
                simp [outChunks, specEvalStdout, hp] at h
                obtain ⟨se2, h2⟩ := ihr.2 s h
                exact ⟨se2, by simp [evalLoop, hp, h2]⟩

/-- Claim C1, counterexample: when a single stdout drain delivers the marker
twice, the loop exits on the marker check and strips only the final copy,
so the returned stdout still ends with the marker. This refutes the part
of C1 stating that the marker never appears at the end of the returned
stdout. -/
theorem c1_returned_stdout_can_end_with_marker :
    (eval none [] [PollEvent.ready false true (Except.ok [])
        (Except.ok (PROMPT ++ PROMPT))]).result
      = some (Except.ok ⟨PROMPT, []⟩)
    ∧ PROMPT <:+ PROMPT := by decide

/-- Claim C1, amended: on traces where poll never fails, never returns
zero-ready, and drains never error, the wait loop exits successfully
exactly when, after draining stdout, the stdout accumulator ends with the
prompt marker, and the returned stdout is the accumulator with that one
trailing copy of the marker stripped — as computed by the claim-side scan
`specEvalStdout`. The returned stdout may itself still end with the
marker when the drained output contained it. -/
theorem c1_eval_loop_matches_marker_scan (tmo : Option Nat) (input : List Char)
    (events : List PollEvent) (h : cleanEvents events = true) :
    (∀ out : EvalOutput, (eval tmo input events).result = some (Except.ok out) →
      specEvalStdout (outChunks events) [] = some out.stdout)
    ∧ (∀ s : List Char, specEvalStdout (outChunks events) [] = some s →
        ∃ se2, (eval tmo input events).result = some (Except.ok ⟨s, se2⟩)) :=
  evalLoop_spec_equiv events h [] []

/-- Claim C1, witness: the amended theorem applied to a concrete clean
one-event trace delivering some output followed by the marker. -/
theorem c1_eval_loop_matches_marker_scan_witness :
    specEvalStdout (outChunks [PollEvent.ready false true (Except.ok [])
      (Except.ok ("hi\n".data ++ PROMPT))]) [] = some "hi\n".data :=
  (c1_eval_loop_matches_marker_scan none []
    [PollEvent.ready false true (Except.ok []) (Except.ok ("hi\n".data ++ PROMPT))]
    (by decide)).1 ⟨"hi\n".data, []⟩ (by decide)

/-- Claim C2: the wait loop produces the Timeout error only when some poll
call returned with no descriptor ready (a zero-ready event occurs in the
trace), and a poll returning with no descriptor ready immediately
produces Timeout; no other branch of the loop yields Timeout. -/
theorem c2_timeout_iff_zero_ready :
    (∀ (events : List PollEvent) (so se : List Char),
      evalLoop events so se = some (Except.error GhciErr.timeout) →
      events.any isZeroReady = true)
    ∧ (∀ (rest : List PollEvent) (so se : List Char)
        (eD oD : Except IOErr (List Char)),
        evalLoop (PollEvent.ready false false eD oD :: rest) so se
          = some (Except.error GhciErr.timeout)) := by
  constructor
  · intro events
    induction events with
    | nil => intro so se h; simp [evalLoop] at h
    | cons e rest ih =>
      intro so se h
      cases e with
      | pollErr n => simp [evalLoop] at h
      | ready er orr eD oD =>
        cases er <;> cases orr
        · simp [List.any_cons, isZeroReady]
        · cases oD with
          | error e2 => simp [evalLoop] at h
          | ok ob =>
            by_cases hp : PROMPT <:+ (so ++ ob)
            · simp [evalLoop, hp] at h
            · simp [evalLoop, hp] at h
              simp [List.any_cons, ih _ _ h]
        · cases eD with
          | error e2 => simp [evalLoop] at h
          | ok eb =>
            simp [evalLoop] at h
            simp [List.any_cons, ih _ _ h]
        · cases eD with
          | error e2 => simp [evalLoop] at h
          | ok eb =>
            cases oD with
            | error e2 => simp [evalLoop] at h
            | ok ob =>
              by_cases hp : PROMPT <:+ (so ++ ob)
              · simp [evalLoop, hp] at h
              · simp [evalLoop, hp] at h
                simp [List.any_cons, ih _ _ h]
  · intro rest so se eD oD
    simp [evalLoop]

/-- Claim C2, witness: both parts of the theorem applied to the concrete
one-event trace whose poll returns with no descriptor ready. -/
theorem c2_timeout_iff_zero_ready_witness :
    [PollEvent.ready false false (Except.ok []) (Except.ok [])].any isZeroReady = true
    ∧ evalLoop [PollEvent.ready false false (Except.ok []) (Except.ok [])] [] []
        = some (Except.error GhciErr.timeout) :=
  ⟨c2_timeout_iff_zero_ready.1
      [PollEvent.ready false false (Except.ok []) (Except.ok [])] [] [] (by decide),
    c2_timeout_iff_zero_ready.2 [] [] [] (Except.ok []) (Except.ok [])⟩

/-- Claim C3, counterexample: two eval calls on an identical session state,
of which the first returns Timeout and the second succeeds. A Timeout
therefore does not put the session into a terminal state that later
evaluate calls observe and fail on. -/
theorem c3_eval_after_timeout_can_succeed :
    (eval (some 10) ['x'] [PollEvent.ready false false (Except.ok [])
        (Except.ok [])]).result
      = some (Except.error GhciErr.timeout)
    ∧ (eval (some 10) ['x'] [PollEvent.ready false true (Except.ok [])
        (Except.ok PROMPT)]).result
      = some (Except.ok ⟨[], []⟩) := by decide

/-- Claim C3, amended: the session carries no lifecycle flag at all — the
result of eval depends only on the events of the current call — so a call
made after a Timeout is not prevented and can succeed. The library only
documents that a timed-out session must be closed; it does not enforce
it. -/
theorem c3_no_lifecycle_state_after_timeout :
    (∀ (tmo1 tmo2 : Option Nat) (input1 input2 : List Char)
      (events : List PollEvent),
      (eval tmo1 input1 events).result = (eval tmo2 input2 events).result)
    ∧ (eval (some 10) ['y'] [PollEvent.ready false false (Except.ok [])
        (Except.ok [])]).result
      = some (Except.error GhciErr.timeout)
    ∧ (eval (some 10) ['y'] [PollEvent.ready false true (Except.ok [])
        (Except.ok PROMPT)]).result
      = some (Except.ok ⟨[], []⟩) :=
  ⟨fun _ _ _ _ _ => rfl, by decide, by decide⟩

/-- Claim C4, counterexample: a present duration of 2147483648 milliseconds
overflows the conversion to the C int type of poll, so it is encoded as
the infinite-wait sentinel -1, exactly like an absent timeout. -/
theorem c4_overflowing_duration_maps_to_infinite_sentinel :
    pollTimeoutArg (some 2147483648) = -1 ∧ pollTimeoutArg none = -1 := by
  decide

/-- Claim C4, amended: an absent timeout is encoded as -1; a present
duration is encoded as its millisecond count when that count is at most
2147483647, and as the sentinel -1 when it exceeds that bound; eval
passes exactly this encoding to poll. -/
theorem c4_poll_timeout_encoding :
    pollTimeoutArg none = -1
    ∧ (∀ ms : Nat, ms ≤ 2147483647 → pollTimeoutArg (some ms) = Int.ofNat ms)
    ∧ (∀ ms : Nat, 2147483647 < ms → pollTimeoutArg (some ms) = -1)
    ∧ (∀ (tmo : Option Nat) (input : List Char) (events : List PollEvent),
        (eval tmo input events).pollArg = pollTimeoutArg tmo) := by
  refine ⟨rfl, ?_, ?_, fun _ _ _ => rfl⟩
  · intro ms h
    simp [pollTimeoutArg, h]
  · intro ms h
    have h2 : ¬ ms ≤ 2147483647 := by omega
    simp [pollTimeoutArg, h2]

/-- Claim C4, witness: the amended theorem applied at 5 milliseconds and at
an overflowing 3000000000 milliseconds. -/
theorem c4_poll_timeout_encoding_witness :
    pollTimeoutArg (some 5) = Int.ofNat 5
    ∧ pollTimeoutArg (some 3000000000) = -1 :=
  ⟨c4_poll_timeout_encoding.2.1 5 (by decide),
    c4_poll_timeout_encoding.2.2.1 3000000000 (by decide)⟩

/-- Claim C5: the accumulators of eval start empty (they are locals of the
call), and a successful EvalOutput consists exactly of the bytes drained
from the child during that same call — the concatenated stdout and stderr
drains of a prefix of its own event trace — so no bytes accumulated
during an earlier call can appear in it. -/
theorem c5_output_only_from_this_call (tmo : Option Nat) (input : List Char)
    (events : List PollEvent) (out : EvalOutput)
    (h : (eval tmo input events).result = some (Except.ok out)) :
    ∃ n, out.stdout ++ PROMPT = outBytes (events.take n)
      ∧ out.stderr = errBytes (events.take n) := by
  have h2 := evalLoop_ok_bytes events [] [] out h
  simpa using h2

/-- Claim C5, witness: the theorem applied to a concrete one-event trace
delivering stderr bytes and stdout bytes ending with the marker. -/
theorem c5_output_only_from_this_call_witness :
    ∃ n, "ok\n".data ++ PROMPT
        = outBytes ([PollEvent.ready true true (Except.ok "E".data)
            (Except.ok ("ok\n".data ++ PROMPT))].take n)
      ∧ "E".data
        = errBytes ([PollEvent.ready true true (Except.ok "E".data)
            (Except.ok ("ok\n".data ++ PROMPT))].take n) :=
  c5_output_only_from_this_call none []
    [PollEvent.ready true true (Except.ok "E".data)
      (Except.ok ("ok\n".data ++ PROMPT))]
    ⟨"ok\n".data, "E".data⟩ (by decide)

/-- Claim C6: eval writes exactly the block-begin token followed by a
newline, the raw snippet bytes followed by a newline, and the block-end
token followed by a newline; and since this frame ends with a newline,
the line-buffering stdin writer has flushed all of it before the wait
loop starts. -/
theorem c6_framed_command_bytes : ∀ (tmo : Option Nat) (input : List Char)
    (events : List PollEvent),
    (eval tmo input events).written
      = [':', '\x7b'] ++ ['\n'] ++ input ++ ['\n'] ++ [':', '\x7d'] ++ ['\n']
    ∧ lineWriterPending ((eval tmo input events).written) = [] := by
  intro tmo input events
  constructor
  · simp [eval, frameInput]
  · have h : (eval tmo input events).written
        = ([':', '\x7b', '\n'] ++ input ++ ['\n', ':', '\x7d']) ++ ['\n'] := by
      simp [eval, frameInput]
    rw [h]
    simp [lineWriterPending, List.reverse_append]

/-- Claim C7: close on a session whose child has already exited returns an
InvalidInput IO error; close on a session whose child is live terminates
the child and returns without error. -/
theorem c7_close_behavior :
    close false = Except.error (GhciErr.ioError IOErr.invalidInput)
    ∧ close true = Except.ok false := by decide

/-- Claim C8, counterexample: when the exit check fails, or when the child
is still running and the kill fails, the Drop impl panics on unwrap
instead of suppressing the failure. This refutes the part of C8 stating
that any failure during teardown is suppressed. -/
theorem c8_drop_failure_panics :
    drop ⟨Except.error IOErr.other, Except.ok ()⟩ = DropOutcome.panicked
    ∧ drop ⟨Except.ok none, Except.error IOErr.other⟩ = DropOutcome.panicked := by
  decide

/-- Claim C8, amended: the Drop impl performs no kill when the child has
already exited, kills a still-running child, and on a failure of the exit
check or of the kill it panics (both results are unwrapped) rather than
suppressing the error. -/
theorem c8_drop_behavior :
    (∀ (status : Nat) (k : Except IOErr Unit),
      drop ⟨Except.ok (some status), k⟩ = DropOutcome.clean false)
    ∧ drop ⟨Except.ok none, Except.ok ()⟩ = DropOutcome.clean true
    ∧ (∀ (e : IOErr) (k : Except IOErr Unit),
        drop ⟨Except.error e, k⟩ = DropOutcome.panicked)
    ∧ (∀ e : IOErr, drop ⟨Except.ok none, Except.error e⟩ = DropOutcome.panicked) :=
  ⟨fun _ _ => rfl, rfl, fun _ _ => rfl, fun _ => rfl⟩

/-- Claim C9: the handshake succeeds exactly when its three gated drain
phases succeed in order — the first drain gated on the default ghci
prompt pattern and the other two on the prompt marker — and on success
the bytes written are the prompt-override command, which embeds the
marker without its trailing newline, followed by the
continuation-prompt-clear command. Each drain returns only a unit, so
the bytes it reads, the pattern included, are discarded. -/
theorem c9_handshake_three_phases : ∀ t1 t2 t3 : List (Except IOErr (List Char)),
    ((new t1 t2 t3).1 = some (Except.ok ()) ↔
      (clear_blocking_reader_until t1 defaultGhciPrompt [] = some (Except.ok ())
        ∧ clear_blocking_reader_until t2 PROMPT [] = some (Except.ok ())
        ∧ clear_blocking_reader_until t3 PROMPT [] = some (Except.ok ())))
    ∧ ((new t1 t2 t3).1 = some (Except.ok ()) →
        (new t1 t2 t3).2 = setPromptCmd ++ setPromptContCmd)
    ∧ defaultGhciPrompt = "> ".data
    ∧ setPromptCmd = ":set prompt \"".data ++ PROMPT.dropLast ++ "\\n\"\n".data
    ∧ setPromptContCmd = ":set prompt-cont \"\"\n".data
    ∧ PROMPT.dropLast ++ ['\n'] = PROMPT := by
  intro t1 t2 t3
  refine ⟨?_, ?_, rfl, rfl, rfl, by decide⟩ <;>
  · cases h1 : clear_blocking_reader_until t1 defaultGhciPrompt [] with
    | none => simp [new, h1]
    | some r1 =>
      cases r1 with
      | error e1 => simp [new, h1]
      | ok u1 =>
        cases u1
        cases h2 : clear_blocking_reader_until t2 PROMPT [] with
        | none => simp [new, h1, h2]
        | some r2 =>
          cases r2 with
          | error e2 => simp [new, h1, h2]
          | ok u2 =>
            cases u2
            cases h3 : clear_blocking_reader_until t3 PROMPT [] with
            | none => simp [new, h1, h2, h3]
            | some r3 =>
              cases r3 with
              | error e3 => simp [new, h1, h2, h3]
              | ok u3 =>
                cases u3
                simp [new, h1, h2, h3]

/-- Claim C9, witness: the success direction of the theorem applied to
concrete one-chunk traces for the three phases. -/
theorem c9_handshake_three_phases_witness :
    (new [Except.ok "> ".data] [Except.ok PROMPT] [Except.ok PROMPT]).1
      = some (Except.ok ()) :=
  ((c9_handshake_three_phases [Except.ok "> ".data] [Except.ok PROMPT]
      [Except.ok PROMPT]).1).mpr ⟨by decide, by decide, by decide⟩

/-- Claim C10: the drain helper returns Ok as soon as a read yields zero
bytes, even when the pattern was never observed; once 1024 bytes have
accumulated, the next read has no buffer capacity left and thus yields
zero bytes, so the helper returns Ok; and the helper only ever returns an
error that a read itself produced — it never reports a missing pattern as
an error. -/
theorem c10_clear_reader_zero_read_returns_ok :
    (∀ (rest : List (Except IOErr (List Char))) (pat buf : List Char),
      clear_blocking_reader_until (Except.ok [] :: rest) pat buf
        = some (Except.ok ()))
    ∧ (∀ (rest : List (Except IOErr (List Char))) (pat buf chunk : List Char),
        buf.length = 1024 →
        clear_blocking_reader_until (Except.ok chunk :: rest) pat buf
          = some (Except.ok ()))
    ∧ (∀ (trace : List (Except IOErr (List Char))) (pat buf : List Char)
        (e : IOErr),
        clear_blocking_reader_until trace pat buf = some (Except.error e) →
        Except.error e ∈ trace) := by
  refine ⟨?_, ?_, ?_⟩
  · intro rest pat buf
    simp [clear_blocking_reader_until]
  · intro rest pat buf chunk h
    simp [clear_blocking_reader_until, h]
  · intro trace
    induction trace with
    | nil => intro pat buf e h; simp [clear_blocking_reader_until] at h
    | cons x rest ih =>
      intro pat buf e h
      cases x with
      | error e2 =>
        by_cases hi : e2 = IOErr.interrupted
        · subst hi
          simp only [clear_blocking_reader_until, if_pos rfl] at h
          exact List.mem_cons_of_mem _ (ih pat buf e h)
        · simp [clear_blocking_reader_until, hi] at h
          subst h
          exact List.mem_cons_self _ _
      | ok chunk =>
        simp only [clear_blocking_reader_until] at h
        split_ifs at h with hc hs
        · simp at h
        · simp at h
        · exact List.mem_cons_of_mem _ (ih pat _ e h)

/-- Claim C10, witness: the first two parts of the theorem applied at an
empty read and at a full 1024-byte buffer. -/
theorem c10_clear_reader_zero_read_returns_ok_witness :
    clear_blocking_reader_until [Except.ok []] ['z'] [] = some (Except.ok ())
    ∧ clear_blocking_reader_until [Except.ok ['b']] ['z']
        (List.replicate 1024 'a') = some (Except.ok ()) :=
  ⟨c10_clear_reader_zero_read_returns_ok.1 [] ['z'] [],
    c10_clear_reader_zero_read_returns_ok.2.1 [] ['z']
      (List.replicate 1024 'a') ['b'] (List.length_replicate 1024 'a')⟩

end GhciRs
